import Mathlib

/-!
Verification of the sales-forecast batch script (`forecast.py`).

The script is embedded shallowly: calendar dates are triples of naturals,
the input table is a list of records, the per-level / per-group loops are
structural recursions returning `Except` (a raised exception propagates to
the single top-level handler, exactly as in the script), and the external
forecasting library is a parameter (`Forecaster`) whose date coverage is
modelled from the spec's collaborator contract.
-/

namespace SalesForecast

/-- A calendar date (year, month, day), as parsed from the input file. -/
structure Date where
  year : Nat
  month : Nat
  day : Nat
deriving DecidableEq

/-- Numeric key giving the calendar order of dates (lexicographic on
year, month, day for in-range fields). -/
def Date.key (d : Date) : Nat :=
  d.year * 10000 + d.month * 100 + d.day

def pad2 (n : Nat) : String :=
  if n < 10 then "0" ++ toString n else toString n

def pad4 (n : Nat) : String :=
  if n < 10 then "000" ++ toString n
  else if n < 100 then "00" ++ toString n
  else if n < 1000 then "0" ++ toString n
  else toString n

/-- ISO calendar-date rendering, the `'%Y-%m-%d'` strftime format of
line 116 of the script. -/
def Date.toISO (d : Date) : String :=
  pad4 d.year ++ "-" ++ pad2 d.month ++ "-" ++ pad2 d.day

/-- The first month-start date strictly after `d` (the `freq='MS'`
granularity of `make_future_dataframe`). -/
def nextMonthStart (d : Date) : Date :=
  if 12 ≤ d.month then ⟨d.year + 1, 1, 1⟩ else ⟨d.year, d.month + 1, 1⟩

/-- The first `n` month-start dates strictly after `d`. -/
def monthStartsAfter (d : Date) : Nat → List Date
  | 0 => []
  | n + 1 => nextMonthStart d :: monthStartsAfter (nextMonthStart d) n

/-- The grouping-key columns appearing in the `FORECAST_LEVELS`
configuration of the script. -/
inductive KeyCol where
  | BCode
  | CustomerName
  | PSRCode
  | ProductCode
deriving DecidableEq

/-- Column-name string of a grouping-key column. -/
def KeyCol.colName : KeyCol → String
  | .BCode => "BCode"
  | .CustomerName => "CustomerName"
  | .PSRCode => "PSRCode"
  | .ProductCode => "ProductCode"

/-- One loaded input row after the renaming of line 34: `ds` is the parsed
`MonthStart`, `y` the (nullable) `NET_TRADE_AMOUNT_CR`, and the four
categorical attribute columns are nullable strings. -/
structure SalesRecord where
  ds : Date
  y : Option Int
  bcode : Option String
  productCode : Option String
  psrCode : Option String
  customerName : Option String
deriving DecidableEq

/-- Value of a grouping-key column on a record. -/
def SalesRecord.keyVal (r : SalesRecord) : KeyCol → Option String
  | .BCode => r.bcode
  | .CustomerName => r.customerName
  | .PSRCode => r.psrCode
  | .ProductCode => r.productCode

/-- `FORECAST_PERIOD_MONTHS = 3` (line 13). -/
def FORECAST_PERIOD_MONTHS : Nat := 3

/-- The `FORECAST_LEVELS` configuration dict (lines 17-23), in its
insertion order, which is the script's iteration order. -/
def FORECAST_LEVELS : List (String × List KeyCol) :=
  [("Overall", []),
   ("By_BCode", [.BCode]),
   ("By_BCode_Product", [.BCode, .ProductCode]),
   ("By_BCode_PSR", [.BCode, .PSRCode]),
   ("By_BCode_Customer", [.BCode, .CustomerName])]

/-- Strict code-point lexicographic comparison of character lists, the
order Python's `sorted` uses on strings. -/
def charListLt : List Char → List Char → Bool
  | [], [] => false
  | [], _ :: _ => true
  | _ :: _, [] => false
  | a :: as, b :: bs =>
    if a.toNat < b.toNat then true
    else if b.toNat < a.toNat then false
    else charListLt as bs

/-- Non-strict string comparison in code-point order. -/
def strLe (a b : String) : Bool := !(charListLt b.data a.data)

/-- `all_key_cols_flat` (line 38): the deduplicated union of every level's
key columns, sorted by column name. -/
def all_key_cols_flat : List KeyCol :=
  ((FORECAST_LEVELS.map Prod.snd).flatten.dedup).insertionSort
    (fun a b => strLe a.colName b.colName = true)

/-- `dropna(subset=group_by_cols)` (line 48): keep the records with no
null in any of the level's key columns. -/
def dropnaKeys (cols : List KeyCol) (df : List SalesRecord) : List SalesRecord :=
  df.filter (fun r => cols.all (fun c => (r.keyVal c).isSome))

/-- The tuple of key-column values of a record, the `groupby` key. -/
def keyTuple (cols : List KeyCol) (r : SalesRecord) : List (Option String) :=
  cols.map r.keyVal

/-- Ascending comparison of two optional strings (nulls first). -/
def optStrLe : Option String → Option String → Bool
  | none, _ => true
  | some _, none => false
  | some a, some b => strLe a b

/-- Lexicographic ascending comparison of key tuples, the order in which
pandas `groupby` yields its groups. -/
def keyLe : List (Option String) → List (Option String) → Bool
  | [], _ => true
  | _ :: _, [] => false
  | a :: as, b :: bs => if a = b then keyLe as bs else optStrLe a b

/-- The distinct key tuples occurring in `df`, in ascending order. -/
def groupKeys (cols : List KeyCol) (df : List SalesRecord) : List (List (Option String)) :=
  ((df.map (keyTuple cols)).dedup).insertionSort (fun a b => keyLe a b = true)

/-- `current_df.groupby(group_by_cols)` (line 52): one group per distinct
key tuple, each holding the records carrying that tuple. -/
def groupBy (cols : List KeyCol) (df : List SalesRecord) :
    List (List (Option String) × List SalesRecord) :=
  (groupKeys cols df).map
    (fun k => (k, df.filter (fun r => decide (keyTuple cols r = k))))

/-- `sort_values('ds')` on the `[['ds', 'y']]` projection (lines 67/96). -/
def sortByDs (ps : List (Date × Option Int)) : List (Date × Option Int) :=
  ps.insertionSort (fun a b => a.1.key < b.1.key)

/-- The `prophet_df` handed to `model.fit` for a group: the (date, value)
pairs of the group's records, sorted ascending by date. -/
def groupFitData (g : List SalesRecord) : List (Date × Option Int) :=
  sortByDs (g.map (fun r => (r.ds, r.y)))

/-- Modelled from the spec: the external forecasting library (Prophet) is
out of scope, so its numeric behaviour is a parameter. `fitFails` tells
whether `model.fit` raises on the given fit data (e.g. on degenerate
input); `est` gives the point estimate and the lower/upper uncertainty
bounds the model predicts for a date. -/
structure Forecaster where
  fitFails : List (Date × Option Int) → Bool
  est : List (Date × Option Int) → Date → Int × Int × Int

/-- Latest date occurring in the fit data (sentinel `⟨0,0,0⟩` on empty
input, which the pipeline never passes). -/
def lastDate (fitData : List (Date × Option Int)) : Date :=
  fitData.foldl (fun m p => if m.key < p.1.key then p.1 else m) ⟨0, 0, 0⟩

/-- Modelled from the spec: the date span of `make_future_dataframe(
periods=FORECAST_PERIOD_MONTHS, freq='MS')` followed by `predict`
(lines 72-73) — every distinct historical date in ascending order, then
the month-start dates for the configured horizon beyond the last
historical date. -/
def predictDates (fitData : List (Date × Option Int)) : List Date :=
  ((fitData.map Prod.fst).dedup).insertionSort (fun a b => a.key ≤ b.key)
    ++ monthStartsAfter (lastDate fitData) FORECAST_PERIOD_MONTHS

/-- One row of a per-group forecast frame, after the script has tagged the
level name (line 76), the key columns (lines 79-82) and merged the
actuals (line 85). Key columns not assigned for the row's level stay
null, as in the final frame after line 121. -/
structure ForecastRow where
  ds : Date
  forecastLevel : String
  bcode : Option String
  productCode : Option String
  psrCode : Option String
  customerName : Option String
  actual : Option Int
  yhat : Int
  yhat_lower : Int
  yhat_upper : Int
deriving DecidableEq

/-- Value of a grouping-key column on a forecast row. -/
def ForecastRow.keyVal (r : ForecastRow) : KeyCol → Option String
  | .BCode => r.bcode
  | .CustomerName => r.customerName
  | .PSRCode => r.psrCode
  | .ProductCode => r.productCode

/-- Assignment `forecast[col_name] = group_keys[j]` for one column. -/
def setKeyVal (r : ForecastRow) (c : KeyCol) (v : Option String) : ForecastRow :=
  match c with
  | .BCode => { r with bcode := v }
  | .CustomerName => { r with customerName := v }
  | .PSRCode => { r with psrCode := v }
  | .ProductCode => { r with productCode := v }

/-- The loop of lines 81-82: assign each of the level's key columns its
positional value from the group key tuple. -/
def setKeyVals (r : ForecastRow) (cols : List KeyCol) (key : List (Option String)) : ForecastRow :=
  (cols.zip key).foldl (fun acc p => setKeyVal acc p.1 p.2) r

/-- One `predict` output row for date `d`, tagged with the level name and
the group's key values; `actual` is still unset (the merge fills it). -/
def mkRow (F : Forecaster) (lv : String) (cols : List KeyCol)
    (key : List (Option String)) (fitData : List (Date × Option Int)) (d : Date) : ForecastRow :=
  setKeyVals
    { ds := d, forecastLevel := lv,
      bcode := none, productCode := none, psrCode := none, customerName := none,
      actual := none,
      yhat := (F.est fitData d).1,
      yhat_lower := (F.est fitData d).2.1,
      yhat_upper := (F.est fitData d).2.2 }
    cols key

/-- `forecast.merge(prophet_df.rename(columns=...), on='ds', how='left')`
(lines 85/103): for each forecast row, the fit rows with exactly equal
date; no match leaves `actual` null, matches replicate the row per
matching fit row with its value. -/
def mergeActuals (rows : List ForecastRow) (fitData : List (Date × Option Int)) :
    List ForecastRow :=
  rows.flatMap (fun row =>
    if (fitData.filter (fun p => decide (p.1 = row.ds))).isEmpty then
      [{ row with actual := none }]
    else
      (fitData.filter (fun p => decide (p.1 = row.ds))).map
        (fun p => { row with actual := p.2 }))

/-- The assembled forecast frame appended to `all_forecasts` for one
group whose fit succeeded (lines 73-87). -/
def forecastRowsFor (F : Forecaster) (lv : String) (cols : List KeyCol)
    (key : List (Option String)) (fitData : List (Date × Option Int)) : List ForecastRow :=
  mergeActuals ((predictDates fitData).map (mkRow F lv cols key fitData)) fitData

/-- `model.fit ... model.predict` for one group: a fit failure raises,
otherwise the assembled rows are returned. -/
def fitAndForecast (F : Forecaster) (lv : String) (cols : List KeyCol)
    (key : List (Option String)) (fitData : List (Date × Option Int)) :
    Except String (List ForecastRow) :=
  if F.fitFails fitData then .error ("model fit failed at level " ++ lv)
  else .ok (forecastRowsFor F lv cols key fitData)

/-- The mutable state of the script's main loop: the loaded dataframe
`df` and the accumulated `all_forecasts` list. -/
structure ScriptState where
  df : List SalesRecord
  all_forecasts : List (List ForecastRow)
deriving DecidableEq

/-- The inner group loop (lines 57-87): groups of fewer than 2 records
are skipped by `continue`; a fit failure raises out of the loop. -/
def groupLoop (F : Forecaster) (lv : String) (cols : List KeyCol)
    (acc : List (List ForecastRow)) :
    List (List (Option String) × List SalesRecord) → Except String (List (List ForecastRow))
  | [] => .ok acc
  | g :: gs =>
    if g.2.length < 2 then groupLoop F lv cols acc gs
    else
      match fitAndForecast F lv cols g.1 (groupFitData g.2) with
      | .error e => .error e
      | .ok rows => groupLoop F lv cols (acc ++ [rows]) gs

/-- One iteration of the level loop (lines 41-105). The level works on
`current_df = df.copy()`; the grouped branch drops null-keyed records and
skips the level when nothing remains, the zero-key branch forecasts the
whole dataframe when it has at least 2 records. -/
def levelStep (F : Forecaster) (st : ScriptState) (lv : String × List KeyCol) :
    Except String ScriptState :=
  if lv.2.isEmpty then
    if st.df.length < 2 then .ok st
    else
      match fitAndForecast F lv.1 [] [] (groupFitData st.df) with
      | .error e => .error e
      | .ok rows => .ok { st with all_forecasts := st.all_forecasts ++ [rows] }
  else
    if (dropnaKeys lv.2 st.df).isEmpty then .ok st
    else
      match groupLoop F lv.1 lv.2 st.all_forecasts (groupBy lv.2 (dropnaKeys lv.2 st.df)) with
      | .error e => .error e
      | .ok fc => .ok { st with all_forecasts := fc }

/-- The full level loop; a raised exception propagates (there is no
handler inside the loop). -/
def runLevels (F : Forecaster) (st : ScriptState) :
    List (String × List KeyCol) → Except String ScriptState
  | [] => .ok st
  | lv :: lvs =>
    match levelStep F st lv with
    | .error e => .error e
    | .ok st2 => runLevels F st2 lvs

/-- `final_output_cols` (line 124) as header strings. -/
def fixedHeader : List String :=
  ["Date", "ForecastLevel"] ++ all_key_cols_flat.map KeyCol.colName
    ++ ["Actual", "Forecast", "Forecast_Low", "Forecast_High"]

/-- Serialized cells of one output row, in the fixed column order; `none`
is a null cell. -/
def rowCells (r : ForecastRow) : List (Option String) :=
  [some r.ds.toISO, some r.forecastLevel]
    ++ all_key_cols_flat.map (fun c => r.keyVal c)
    ++ [r.actual.map toString, some (toString r.yhat),
        some (toString r.yhat_lower), some (toString r.yhat_upper)]

/-- The written output file: header plus data rows of nullable cells. -/
structure OutputTable where
  header : List String
  rows : List (List (Option String))
deriving DecidableEq

/-- Lines 112-125: concatenate all per-group frames, add the missing key
columns as null, and select the fixed column order. -/
def buildOutput (forecasts : List (List ForecastRow)) : OutputTable :=
  ⟨fixedHeader, forecasts.flatten.map rowCells⟩

/-- CSV rendering of the table (null cells are empty, as pandas writes
`NaN`). -/
def toCSV (t : OutputTable) : String :=
  String.intercalate "\n"
    (String.intercalate "," t.header
      :: t.rows.map (fun cells =>
        String.intercalate "," (cells.map (fun c => c.getD ""))))

/-- Outcome of the environment for the git publish step (lines 139-161):
either the commands run (with or without a staged diff for the output
file), or `git` is absent (`FileNotFoundError`), or some git command
exits non-zero (`CalledProcessError`). -/
inductive GitOutcome where
  | ok (fileInStatus : Bool)
  | toolMissing
  | commandFailed (msg : String)
deriving DecidableEq

/-- Observable result of one whole run of the script. -/
structure RunResult where
  fileWritten : Option OutputTable
  commitMessage : Option String
  pushed : Bool
  gitFailureReported : Bool
  scriptError : Option String
  exitCode : Nat
deriving DecidableEq

/-- The message of the `ValueError` raised at line 108. -/
def noForecastsMsg : String :=
  "No forecasts were generated. Check input data and FORECAST_LEVELS configuration."

/-- The publish step: commit message (timestamped, line 142) and push
happen only when the output file shows in `git status`; both failure
modes are caught by the dedicated handlers of lines 156-161. -/
def publishStep (now : String) (git : GitOutcome) : Option String × Bool × Bool :=
  match git with
  | .ok true => (some ("Auto-update sales forecast: " ++ now), true, false)
  | .ok false => (none, false, false)
  | .toolMissing => (none, false, true)
  | .commandFailed _ => (none, false, true)

/-- What the script does after the level loop: the `ValueError` of line
108 when nothing was forecast, otherwise write the combined table and
attempt the publish. Any exception reaches the top-level handler of line
167, which prints it — the process still ends normally (exit code 0; the
script never calls `sys.exit`). -/
def afterLevels (git : GitOutcome) (now : String) :
    Except String ScriptState → RunResult
  | .error e =>
    { fileWritten := none, commitMessage := none, pushed := false,
      gitFailureReported := false, scriptError := some e, exitCode := 0 }
  | .ok st =>
    if st.all_forecasts.isEmpty then
      { fileWritten := none, commitMessage := none, pushed := false,
        gitFailureReported := false, scriptError := some noForecastsMsg, exitCode := 0 }
    else
      { fileWritten := some (buildOutput st.all_forecasts),
        commitMessage := (publishStep now git).1,
        pushed := (publishStep now git).2.1,
        gitFailureReported := (publishStep now git).2.2,
        scriptError := none, exitCode := 0 }

/-- One run of the script on an already-loaded dataframe. -/
def runScript (F : Forecaster) (git : GitOutcome) (now : String)
    (df : List SalesRecord) : RunResult :=
  afterLevels git now (runLevels F ⟨df, []⟩ FORECAST_LEVELS)

/-- The (key, group) pairs on which the script actually invokes
`model.fit` for a level with grouping columns: the groups of the
null-key-dropped dataframe having at least 2 records (lines 46-64). -/
def groupsToForecast (cols : List KeyCol) (df : List SalesRecord) :
    List (List (Option String) × List SalesRecord) :=
  (groupBy cols (dropnaKeys cols df)).filter (fun p => !decide (p.2.length < 2))

/-- Position of a grouping-key column in the fixed output column order. -/
def keyColIdx : KeyCol → Nat
  | .BCode => 2
  | .CustomerName => 3
  | .PSRCode => 4
  | .ProductCode => 5

/-- A forecaster whose fit always succeeds (estimates are irrelevant to
the structural claims). -/
def constFitter : Forecaster := ⟨fun _ => false, fun _ _ => (0, 0, 0)⟩

/-- A forecaster that fails exactly on degenerate fit data (fewer than
two distinct dates), the failure mode the spec names. -/
def degenerateFitter : Forecaster :=
  ⟨fun fd => decide ((fd.map Prod.fst).dedup.length < 2), fun _ _ => (0, 0, 0)⟩

/-- Two well-formed monthly records with no key columns populated. -/
def dfW : List SalesRecord :=
  [⟨⟨2023, 1, 1⟩, some 10, none, none, none, none⟩,
   ⟨⟨2023, 2, 1⟩, some 20, none, none, none, none⟩]

/-- Twenty-four consecutive monthly records (2023-01 .. 2024-12) with no
key columns populated: the spec's Scenario A input. -/
def df24 : List SalesRecord :=
  (List.range 24).map (fun i =>
    { ds := ⟨2023 + i / 12, i % 12 + 1, 1⟩, y := some 100,
      bcode := none, productCode := none, psrCode := none, customerName := none })

/-- Input whose `By_BCode` group `A` is degenerate (two records on the
same date) while group `B` is perfectly fittable. -/
def dfC1 : List SalesRecord :=
  [⟨⟨2023, 1, 1⟩, some 10, some "A", none, none, none⟩,
   ⟨⟨2023, 1, 1⟩, some 12, some "A", none, none, none⟩,
   ⟨⟨2023, 1, 1⟩, some 5, some "B", none, none, none⟩,
   ⟨⟨2023, 2, 1⟩, some 6, some "B", none, none, none⟩]

/-- A single record: every level is skipped, so no forecast is produced. -/
def dfC2 : List SalesRecord :=
  [⟨⟨2023, 1, 1⟩, some 1, none, none, none, none⟩]

/-- Two records for the zero-key level, one of them with a null value. -/
def dfC6 : List SalesRecord :=
  [⟨⟨2023, 1, 1⟩, some 5, none, none, none, none⟩,
   ⟨⟨2023, 2, 1⟩, none, none, none, none, none⟩]

/-- The spec's Scenario B input: `BCode` values A, A, B over three rows. -/
def dfB3 : List SalesRecord :=
  [⟨⟨2023, 1, 1⟩, some 1, some "A", none, none, none⟩,
   ⟨⟨2023, 2, 1⟩, some 2, some "A", none, none, none⟩,
   ⟨⟨2023, 3, 1⟩, some 3, some "B", none, none, none⟩]

/-! ### Helper lemmas -/

theorem setKeyVal_ds (r : ForecastRow) (c2 : KeyCol) (v : Option String) :
    (setKeyVal r c2 v).ds = r.ds := by
  cases c2 <;> rfl

theorem setKeyVal_forecastLevel (r : ForecastRow) (c2 : KeyCol) (v : Option String) :
    (setKeyVal r c2 v).forecastLevel = r.forecastLevel := by
  cases c2 <;> rfl

theorem setKeyVal_keyVal_of_ne (r : ForecastRow) (c2 : KeyCol) (v : Option String)
    (c0 : KeyCol) (h : c0 ≠ c2) : (setKeyVal r c2 v).keyVal c0 = r.keyVal c0 := by
  cases c2 <;> cases c0 <;> first | rfl | exact absurd rfl h

theorem setKeyValsAux_ds (l : List (KeyCol × Option String)) (r : ForecastRow) :
    (l.foldl (fun acc p => setKeyVal acc p.1 p.2) r).ds = r.ds := by
  induction l generalizing r with
  | nil => rfl
  | cons p l ih => rw [List.foldl_cons, ih, setKeyVal_ds]

theorem setKeyValsAux_forecastLevel (l : List (KeyCol × Option String)) (r : ForecastRow) :
    (l.foldl (fun acc p => setKeyVal acc p.1 p.2) r).forecastLevel = r.forecastLevel := by
  induction l generalizing r with
  | nil => rfl
  | cons p l ih => rw [List.foldl_cons, ih, setKeyVal_forecastLevel]

theorem setKeyValsAux_keyVal (l : List (KeyCol × Option String)) (r : ForecastRow)
    (c0 : KeyCol) (h : ∀ p ∈ l, p.1 ≠ c0) :
    (l.foldl (fun acc p => setKeyVal acc p.1 p.2) r).keyVal c0 = r.keyVal c0 := by
  induction l generalizing r with
  | nil => rfl
  | cons p l ih =>
    rw [List.foldl_cons, ih _ (fun q hq => h q (List.mem_cons_of_mem _ hq)),
      setKeyVal_keyVal_of_ne]
    exact fun he => h p (List.mem_cons_self _ _) (he ▸ rfl)

theorem mkRow_ds (F : Forecaster) (lv : String) (cols : List KeyCol)
    (key : List (Option String)) (fd : List (Date × Option Int)) (d : Date) :
    (mkRow F lv cols key fd d).ds = d :=
  setKeyValsAux_ds _ _

theorem mkRow_forecastLevel (F : Forecaster) (lv : String) (cols : List KeyCol)
    (key : List (Option String)) (fd : List (Date × Option Int)) (d : Date) :
    (mkRow F lv cols key fd d).forecastLevel = lv :=
  setKeyValsAux_forecastLevel _ _

theorem mkRow_keyVal (F : Forecaster) (lv : String) (cols : List KeyCol)
    (key : List (Option String)) (fd : List (Date × Option Int)) (d : Date)
    (c0 : KeyCol) (h : c0 ∉ cols) : (mkRow F lv cols key fd d).keyVal c0 = none := by
  unfold mkRow setKeyVals
  rw [setKeyValsAux_keyVal]
  · cases c0 <;> rfl
  · intro p hp he
    exact h (he ▸ (List.of_mem_zip hp).1)

theorem withActual_ds (r : ForecastRow) (a : Option Int) :
    ({ r with actual := a } : ForecastRow).ds = r.ds := rfl

theorem withActual_keyVal (r : ForecastRow) (a : Option Int) (c0 : KeyCol) :
    ({ r with actual := a } : ForecastRow).keyVal c0 = r.keyVal c0 := by
  cases c0 <;> rfl

theorem all_key_cols_flat_eq :
    all_key_cols_flat = [.BCode, .CustomerName, .PSRCode, .ProductCode] := by
  decide

theorem fixedHeader_eq :
    fixedHeader = ["Date", "ForecastLevel", "BCode", "CustomerName", "PSRCode",
      "ProductCode", "Actual", "Forecast", "Forecast_Low", "Forecast_High"] := by
  rw [fixedHeader, all_key_cols_flat_eq]
  rfl

theorem level_names_nodup : (FORECAST_LEVELS.map Prod.fst).Nodup := by
  decide

theorem rowCells_eq (r : ForecastRow) :
    rowCells r = [some r.ds.toISO, some r.forecastLevel, r.bcode, r.customerName,
      r.psrCode, r.productCode, r.actual.map toString, some (toString r.yhat),
      some (toString r.yhat_lower), some (toString r.yhat_upper)] := by
  rw [rowCells, all_key_cols_flat_eq]
  rfl

theorem mem_mergeActuals {rows : List ForecastRow} {fd : List (Date × Option Int)}
    {row2 : ForecastRow} (h : row2 ∈ mergeActuals rows fd) :
    ∃ row ∈ rows, ∃ a, row2 = { row with actual := a } ∧
      ((a = none ∧ ∀ p ∈ fd, p.1 ≠ row.ds) ∨ ∃ p ∈ fd, p.1 = row.ds ∧ a = p.2) := by
  rw [mergeActuals, List.mem_flatMap] at h
  obtain ⟨row, hrow, hmem⟩ := h
  refine ⟨row, hrow, ?_⟩
  by_cases he : (fd.filter (fun p => decide (p.1 = row.ds))).isEmpty
  · rw [if_pos he, List.mem_singleton] at hmem
    refine ⟨none, hmem, Or.inl ⟨rfl, ?_⟩⟩
    intro p hp hpd
    have : p ∈ fd.filter (fun p => decide (p.1 = row.ds)) :=
      List.mem_filter.mpr ⟨hp, by simp [hpd]⟩
    rw [List.isEmpty_iff.mp he] at this
    exact absurd this (List.not_mem_nil p)
  · rw [if_neg he, List.mem_map] at hmem
    obtain ⟨p, hp, hpeq⟩ := hmem
    have hp2 := List.mem_filter.mp hp
    exact ⟨p.2, hpeq.symm, Or.inr ⟨p, hp2.1, by simpa using hp2.2, rfl⟩⟩

theorem mergeActuals_exists {rows : List ForecastRow} (fd : List (Date × Option Int))
    {row : ForecastRow} (h : row ∈ rows) :
    ∃ a, ({ row with actual := a } : ForecastRow) ∈ mergeActuals rows fd := by
  cases hf : fd.filter (fun p => decide (p.1 = row.ds)) with
  | nil =>
    refine ⟨none, ?_⟩
    rw [mergeActuals, List.mem_flatMap]
    exact ⟨row, h, by rw [hf]; exact List.mem_singleton.mpr rfl⟩
  | cons p ps =>
    refine ⟨p.2, ?_⟩
    rw [mergeActuals, List.mem_flatMap]
    refine ⟨row, h, ?_⟩
    rw [hf]
    have : ¬ (List.cons p ps).isEmpty := by simp
    rw [if_neg this]
    exact List.mem_map.mpr ⟨p, List.mem_cons_self _ _, rfl⟩

theorem mem_predictDates {fd : List (Date × Option Int)} {d : Date} :
    d ∈ predictDates fd ↔
      (∃ p ∈ fd, p.1 = d) ∨ d ∈ monthStartsAfter (lastDate fd) FORECAST_PERIOD_MONTHS := by
  rw [predictDates, List.mem_append, List.mem_insertionSort, List.mem_dedup]
  simp [List.mem_map, eq_comm]

theorem lastDate_foldl (l : List (Date × Option Int)) (init : Date) :
    init.key ≤ (l.foldl (fun m p => if m.key < p.1.key then p.1 else m) init).key
    ∧ ∀ p ∈ l, p.1.key ≤ (l.foldl (fun m p => if m.key < p.1.key then p.1 else m) init).key := by
  induction l generalizing init with
  | nil => exact ⟨Nat.le_refl _, fun p hp => absurd hp (List.not_mem_nil p)⟩
  | cons q l ih =>
    rw [List.foldl_cons]
    have hstep : init.key ≤ (if init.key < q.1.key then q.1 else init).key ∧
        q.1.key ≤ (if init.key < q.1.key then q.1 else init).key := by
      by_cases hq : init.key < q.1.key
      · rw [if_pos hq]; exact ⟨Nat.le_of_lt hq, Nat.le_refl _⟩
      · rw [if_neg hq]; exact ⟨Nat.le_refl _, Nat.le_of_not_lt hq⟩
    obtain ⟨h1, h2⟩ := ih (if init.key < q.1.key then q.1 else init)
    refine ⟨Nat.le_trans hstep.1 h1, fun p hp => ?_⟩
    rcases List.mem_cons.mp hp with hpq | hpl
    · rw [hpq]; exact Nat.le_trans hstep.2 h1
    · exact h2 p hpl

theorem mem_lastDate_key {fd : List (Date × Option Int)} {p : Date × Option Int}
    (hp : p ∈ fd) : p.1.key ≤ (lastDate fd).key :=
  (lastDate_foldl fd ⟨0, 0, 0⟩).2 p hp

theorem groupFitData_perm (g : List SalesRecord) :
    List.Perm (groupFitData g) (g.map (fun r => (r.ds, r.y))) :=
  List.perm_insertionSort _ _

theorem mem_groupFitData {g : List SalesRecord} {d : Date} {v : Option Int} :
    (d, v) ∈ groupFitData g ↔ ∃ r ∈ g, r.ds = d ∧ r.y = v := by
  rw [(groupFitData_perm g).mem_iff]
  simp [List.mem_map, Prod.ext_iff, eq_comm]

theorem groupFitData_nodup {g : List SalesRecord}
    (h : (g.map SalesRecord.ds).Nodup) : ((groupFitData g).map Prod.fst).Nodup := by
  have hperm : List.Perm ((groupFitData g).map Prod.fst)
      ((g.map (fun r => (r.ds, r.y))).map Prod.fst) :=
    (groupFitData_perm g).map Prod.fst
  rw [hperm.nodup_iff, List.map_map]
  exact h

theorem withActual_forecastLevel (r : ForecastRow) (a : Option Int) :
    ({ r with actual := a } : ForecastRow).forecastLevel = r.forecastLevel := rfl

theorem fitAndForecast_ok {F : Forecaster} {lv : String} {cols : List KeyCol}
    {key : List (Option String)} {fd : List (Date × Option Int)} {rows : List ForecastRow}
    (h : fitAndForecast F lv cols key fd = .ok rows) :
    rows = forecastRowsFor F lv cols key fd := by
  unfold fitAndForecast at h
  split at h
  · exact Except.noConfusion h
  · exact (Except.ok.inj h).symm

theorem forecastRowsFor_fields {F : Forecaster} {lv : String} {cols : List KeyCol}
    {key : List (Option String)} {fd : List (Date × Option Int)} {row : ForecastRow}
    (h : row ∈ forecastRowsFor F lv cols key fd) :
    row.forecastLevel = lv ∧ ∀ c0, c0 ∉ cols → row.keyVal c0 = none := by
  rw [forecastRowsFor] at h
  obtain ⟨base, hbase, a, rfl, _⟩ := mem_mergeActuals h
  obtain ⟨d, _, rfl⟩ := List.mem_map.mp hbase
  constructor
  · rw [withActual_forecastLevel, mkRow_forecastLevel]
  · intro c0 hc0
    rw [withActual_keyVal, mkRow_keyVal]
    exact hc0

theorem levelStep_df {F : Forecaster} {st : ScriptState} {lv : String × List KeyCol}
    {st2 : ScriptState} (h : levelStep F st lv = .ok st2) : st2.df = st.df := by
  unfold levelStep at h
  by_cases h1 : lv.2.isEmpty = true
  · rw [if_pos h1] at h
    by_cases h2 : st.df.length < 2
    · rw [if_pos h2] at h
      rw [← Except.ok.inj h]
    · rw [if_neg h2] at h
      cases hfit : fitAndForecast F lv.1 [] [] (groupFitData st.df) with
      | error e => rw [hfit] at h; exact Except.noConfusion h
      | ok rows => rw [hfit] at h; rw [← Except.ok.inj h]
  · rw [if_neg h1] at h
    by_cases h2 : (dropnaKeys lv.2 st.df).isEmpty = true
    · rw [if_pos h2] at h
      rw [← Except.ok.inj h]
    · rw [if_neg h2] at h
      cases hloop : groupLoop F lv.1 lv.2 st.all_forecasts
        (groupBy lv.2 (dropnaKeys lv.2 st.df)) with
      | error e => rw [hloop] at h; exact Except.noConfusion h
      | ok fc => rw [hloop] at h; rw [← Except.ok.inj h]

theorem runLevels_df {F : Forecaster} (lvs : List (String × List KeyCol))
    {st st2 : ScriptState} (h : runLevels F st lvs = .ok st2) : st2.df = st.df := by
  induction lvs generalizing st with
  | nil =>
    unfold runLevels at h
    rw [← Except.ok.inj h]
  | cons lv lvs ih =>
    unfold runLevels at h
    cases hstep : levelStep F st lv with
    | error e => rw [hstep] at h; exact Except.noConfusion h
    | ok st3 =>
      rw [hstep] at h
      rw [ih h, levelStep_df hstep]

theorem groupLoop_mem {F : Forecaster} {lv : String} {cols : List KeyCol}
    {gs : List (List (Option String) × List SalesRecord)}
    {acc acc2 : List (List ForecastRow)} (h : groupLoop F lv cols acc gs = .ok acc2) :
    ∀ rows ∈ acc2, rows ∈ acc ∨
      ∃ key fd, rows = forecastRowsFor F lv cols key fd := by
  induction gs generalizing acc with
  | nil =>
    unfold groupLoop at h
    rw [← Except.ok.inj h]
    exact fun rows hr => Or.inl hr
  | cons g gs ih =>
    unfold groupLoop at h
    split at h
    · exact ih h
    · cases hfit : fitAndForecast F lv cols g.1 (groupFitData g.2) with
      | error e => rw [hfit] at h; exact Except.noConfusion h
      | ok rows0 =>
        rw [hfit] at h
        intro rows hr
        rcases ih h rows hr with hmem | hnew
        · rcases List.mem_append.mp hmem with hacc | hone
          · exact Or.inl hacc
          · exact Or.inr ⟨g.1, groupFitData g.2,
              (List.mem_singleton.mp hone).trans (fitAndForecast_ok hfit)⟩
        · exact Or.inr hnew

theorem levelStep_mem {F : Forecaster} {st : ScriptState} {lv : String × List KeyCol}
    {st2 : ScriptState} (h : levelStep F st lv = .ok st2) :
    ∀ rows ∈ st2.all_forecasts, rows ∈ st.all_forecasts ∨
      ∃ key fd, rows = forecastRowsFor F lv.1 lv.2 key fd := by
  unfold levelStep at h
  by_cases hempty : lv.2.isEmpty = true
  · rw [if_pos hempty] at h
    have hnil : lv.2 = [] := List.isEmpty_iff.mp hempty
    split at h
    · rw [← Except.ok.inj h]
      exact fun rows hr => Or.inl hr
    · cases hfit : fitAndForecast F lv.1 [] [] (groupFitData st.df) with
      | error e => rw [hfit] at h; exact Except.noConfusion h
      | ok rows0 =>
        rw [hfit] at h
        rw [← Except.ok.inj h]
        intro rows hr
        rcases List.mem_append.mp hr with hacc | hone
        · exact Or.inl hacc
        · refine Or.inr ⟨[], groupFitData st.df, ?_⟩
          rw [hnil]
          exact (List.mem_singleton.mp hone).trans (fitAndForecast_ok hfit)
  · rw [if_neg hempty] at h
    split at h
    · rw [← Except.ok.inj h]
      exact fun rows hr => Or.inl hr
    · cases hloop : groupLoop F lv.1 lv.2 st.all_forecasts
        (groupBy lv.2 (dropnaKeys lv.2 st.df)) with
      | error e => rw [hloop] at h; exact Except.noConfusion h
      | ok fc =>
        rw [hloop] at h
        rw [← Except.ok.inj h]
        exact groupLoop_mem hloop

theorem runLevels_mem {F : Forecaster} (lvs : List (String × List KeyCol))
    {st st2 : ScriptState} (h : runLevels F st lvs = .ok st2) :
    ∀ rows ∈ st2.all_forecasts, rows ∈ st.all_forecasts ∨
      ∃ lv ∈ lvs, ∃ key fd, rows = forecastRowsFor F lv.1 lv.2 key fd := by
  induction lvs generalizing st with
  | nil =>
    unfold runLevels at h
    rw [← Except.ok.inj h]
    exact fun rows hr => Or.inl hr
  | cons lv lvs ih =>
    unfold runLevels at h
    cases hstep : levelStep F st lv with
    | error e => rw [hstep] at h; exact Except.noConfusion h
    | ok st3 =>
      rw [hstep] at h
      intro rows hr
      rcases ih h rows hr with hmem | ⟨lv2, hlv2, hnew⟩
      · rcases levelStep_mem hstep rows hmem with hacc | hnew
        · exact Or.inl hacc
        · exact Or.inr ⟨lv, List.mem_cons_self _ _, hnew⟩
      · exact Or.inr ⟨lv2, List.mem_cons_of_mem _ hlv2, hnew⟩

theorem fileWritten_some {F : Forecaster} {git : GitOutcome} {now : String}
    {df : List SalesRecord} {t : OutputTable}
    (h : (runScript F git now df).fileWritten = some t) :
    ∃ st, runLevels F ⟨df, []⟩ FORECAST_LEVELS = .ok st ∧
      st.all_forecasts ≠ [] ∧ t = buildOutput st.all_forecasts := by
  unfold runScript at h
  cases hres : runLevels F ⟨df, []⟩ FORECAST_LEVELS with
  | error e =>
    rw [hres] at h
    exact Option.noConfusion h
  | ok st =>
    rw [hres] at h
    by_cases he : st.all_forecasts.isEmpty = true
    · rw [afterLevels, if_pos he] at h
      exact Option.noConfusion h
    · rw [afterLevels, if_neg he] at h
      exact ⟨st, rfl, fun hnil => he (List.isEmpty_iff.mpr hnil),
        (Option.some.inj h).symm⟩

theorem mem_groupBy {cols : List KeyCol} {df : List SalesRecord}
    {k : List (Option String)} {g : List SalesRecord} :
    (k, g) ∈ groupBy cols df ↔
      (∃ r ∈ df, keyTuple cols r = k) ∧
        g = df.filter (fun r => decide (keyTuple cols r = k)) := by
  rw [groupBy]
  constructor
  · intro h
    obtain ⟨k0, hk0, heq⟩ := List.mem_map.mp h
    have hk : k0 = k := congrArg Prod.fst heq
    have hg : df.filter (fun r => decide (keyTuple cols r = k0)) = g := congrArg Prod.snd heq
    subst hk
    refine ⟨?_, hg.symm⟩
    rw [groupKeys, List.mem_insertionSort, List.mem_dedup, List.mem_map] at hk0
    exact hk0
  · rintro ⟨⟨r, hr, hrk⟩, rfl⟩
    apply List.mem_map.mpr
    refine ⟨k, ?_, rfl⟩
    rw [groupKeys, List.mem_insertionSort, List.mem_dedup, List.mem_map]
    exact ⟨r, hr, hrk⟩

theorem mem_groupsToForecast {cols : List KeyCol} {df : List SalesRecord}
    {k : List (Option String)} {g : List SalesRecord} :
    (k, g) ∈ groupsToForecast cols df ↔
      2 ≤ g.length ∧
        g = df.filter (fun r =>
          cols.all (fun c2 => (r.keyVal c2).isSome) && decide (keyTuple cols r = k)) := by
  rw [groupsToForecast, List.mem_filter, mem_groupBy]
  constructor
  · rintro ⟨⟨_, rfl⟩, hlen⟩
    have hlen2 : 2 ≤ ((dropnaKeys cols df).filter
        (fun r => decide (keyTuple cols r = k))).length := by
      simpa using hlen
    refine ⟨hlen2, ?_⟩
    rw [dropnaKeys, List.filter_filter]
    apply List.filter_congr
    intro r _
    rw [Bool.and_comm]
  · rintro ⟨hlen, hg⟩
    have hg2 : g = (dropnaKeys cols df).filter (fun r => decide (keyTuple cols r = k)) := by
      rw [dropnaKeys, List.filter_filter, hg]
      apply List.filter_congr
      intro r _
      rw [Bool.and_comm]
    have hpos : 0 < g.length := Nat.lt_of_lt_of_le (by decide) hlen
    obtain ⟨r, hr⟩ := List.exists_mem_of_length_pos hpos
    have hr2 := List.mem_filter.mp (hg2 ▸ hr)
    refine ⟨⟨⟨r, hr2.1, of_decide_eq_true hr2.2⟩, hg2⟩, ?_⟩
    simp only [Bool.not_eq_eq_eq_not, Bool.not_true, decide_eq_false_iff_not]
    exact fun hc => absurd hlen (by omega)

theorem groupLoop_noFail {F : Forecaster} {lv : String} {cols : List KeyCol}
    (gs : List (List (Option String) × List SalesRecord)) (acc : List (List ForecastRow))
    (hok : ∀ p ∈ gs, ¬ p.2.length < 2 → F.fitFails (groupFitData p.2) = false) :
    groupLoop F lv cols acc gs =
      .ok (acc ++ (gs.filter (fun p => !decide (p.2.length < 2))).map
        (fun p => forecastRowsFor F lv cols p.1 (groupFitData p.2))) := by
  induction gs generalizing acc with
  | nil => simp [groupLoop]
  | cons g gs ih =>
    unfold groupLoop
    by_cases hlen : g.2.length < 2
    · rw [if_pos hlen, ih acc (fun p hp h2 => hok p (List.mem_cons_of_mem _ hp) h2)]
      rw [List.filter_cons]
      simp [hlen]
    · have hfit := hok g (List.mem_cons_self _ _) hlen
      rw [if_neg hlen]
      have hfa : fitAndForecast F lv cols g.1 (groupFitData g.2) =
          .ok (forecastRowsFor F lv cols g.1 (groupFitData g.2)) := by
        simp [fitAndForecast, hfit]
      rw [hfa]
      refine (ih _ (fun p hp h2 => hok p (List.mem_cons_of_mem _ hp) h2)).trans ?_
      rw [List.filter_cons]
      simp [hlen, List.append_assoc]

theorem levelStep_grouped {F : Forecaster} {lv : String} {cols : List KeyCol}
    (hcols : cols ≠ []) (st : ScriptState)
    (hok : ∀ p ∈ groupsToForecast cols st.df, F.fitFails (groupFitData p.2) = false) :
    levelStep F st (lv, cols) =
      .ok { st with
            all_forecasts := st.all_forecasts ++
              (groupsToForecast cols st.df).map
                (fun p => forecastRowsFor F lv cols p.1 (groupFitData p.2)) } := by
  unfold levelStep
  have hne : ¬ (((lv, cols) : String × List KeyCol).2.isEmpty = true) := by
    cases cols with
    | nil => exact absurd rfl hcols
    | cons a l => simp
  rw [if_neg hne]
  by_cases h2 : (dropnaKeys cols st.df).isEmpty = true
  · rw [if_pos h2]
    have hnil : dropnaKeys cols st.df = [] := List.isEmpty_iff.mp h2
    have hgE : groupsToForecast cols st.df = [] := by
      rw [groupsToForecast, hnil]
      rfl
    simp [hgE]
  · rw [if_neg h2]
    have hok2 : ∀ p ∈ groupBy cols (dropnaKeys cols st.df), ¬ p.2.length < 2 →
        F.fitFails (groupFitData p.2) = false := by
      intro p hp hlen
      apply hok
      rw [groupsToForecast, List.mem_filter]
      exact ⟨hp, by simpa using hlen⟩
    rw [groupLoop_noFail _ _ hok2]
    rfl

theorem exists_row_ds {F : Forecaster} {lv : String} {cols : List KeyCol}
    {key : List (Option String)} {fd : List (Date × Option Int)} {d : Date}
    (hd : d ∈ predictDates fd) :
    ∃ row ∈ forecastRowsFor F lv cols key fd, row.ds = d := by
  have hbase : mkRow F lv cols key fd d ∈ (predictDates fd).map (mkRow F lv cols key fd) :=
    List.mem_map.mpr ⟨d, hd, rfl⟩
  obtain ⟨a, ha⟩ := mergeActuals_exists fd hbase
  refine ⟨{ mkRow F lv cols key fd d with actual := a }, ?_, ?_⟩
  · rw [forecastRowsFor]
    exact ha
  · rw [withActual_ds, mkRow_ds]

/-! ### Claims -/

set_option maxRecDepth 4000 in
/-- C1 (code bug): the spec's failure-isolation policy says a fit failure
for one group must skip only that group, with every other group and level
still completing. The script has no per-group handler: on `dfC1`, group
`A` of `By_BCode` is degenerate (one distinct date) while group `B` and
the Overall level fit fine, yet the exception escapes to the top-level
handler, the run is aborted and no output is written at all. -/
theorem c1_fit_failure_aborts_run :
    degenerateFitter.fitFails
      (groupFitData (dfC1.filter (fun r => r.bcode == some "A"))) = true
    ∧ degenerateFitter.fitFails
      (groupFitData (dfC1.filter (fun r => r.bcode == some "B"))) = false
    ∧ degenerateFitter.fitFails (groupFitData dfC1) = false
    ∧ (runScript degenerateFitter (GitOutcome.ok true) "t" dfC1).scriptError =
        some "model fit failed at level By_BCode"
    ∧ (runScript degenerateFitter (GitOutcome.ok true) "t" dfC1).fileWritten = none := by
  decide

/-- C2 counterexample: on a one-record input every group is skipped and
the no-forecasts `ValueError` is raised before writing — but the process
exits ZERO, not non-zero: the top-level handler catches the error, prints
it, and the script ends normally. -/
theorem c2_counterexample :
    (runScript constFitter (GitOutcome.ok true) "t" dfC2).exitCode = 0
    ∧ (runScript constFitter (GitOutcome.ok true) "t" dfC2).fileWritten = none
    ∧ (runScript constFitter (GitOutcome.ok true) "t" dfC2).scriptError.isSome = true := by
  decide

/-- C2 (amended): if after the level loop no forecast was produced, the
run raises the no-forecasts error before writing — no output file is
written, the top-level handler reports it, and the process exits zero. -/
theorem c2_no_forecasts_amended (F : Forecaster) (git : GitOutcome) (now : String)
    (df : List SalesRecord) (st : ScriptState)
    (h1 : runLevels F ⟨df, []⟩ FORECAST_LEVELS = .ok st)
    (h2 : st.all_forecasts = []) :
    (runScript F git now df).fileWritten = none
    ∧ (runScript F git now df).scriptError = some noForecastsMsg
    ∧ (runScript F git now df).exitCode = 0 := by
  unfold runScript
  rw [h1, afterLevels, if_pos (by rw [h2]; rfl)]
  exact ⟨rfl, rfl, rfl⟩

/-- Witness for C2's amended claim at the concrete one-record input. -/
theorem c2_witness :
    (runScript constFitter (GitOutcome.ok true) "now" dfC2).fileWritten = none
    ∧ (runScript constFitter (GitOutcome.ok true) "now" dfC2).scriptError =
        some noForecastsMsg
    ∧ (runScript constFitter (GitOutcome.ok true) "now" dfC2).exitCode = 0 :=
  c2_no_forecasts_amended constFitter (GitOutcome.ok true) "now" dfC2 ⟨dfC2, []⟩ rfl rfl

/-- C3: for a group with at least 2 points and pairwise-distinct dates,
every input date of the group appears among the assembled rows; a row
whose date matches an input record carries exactly that record's value as
`Actual`; a row whose date matches no input record has `Actual` null. -/
theorem c3_actual_roundtrip (F : Forecaster) (lv : String) (cols : List KeyCol)
    (key : List (Option String)) (g : List SalesRecord)
    (hlen : 2 ≤ g.length) (hnodup : (g.map SalesRecord.ds).Nodup) :
    (∀ r ∈ g, ∃ row ∈ forecastRowsFor F lv cols key (groupFitData g), row.ds = r.ds)
    ∧ (∀ row ∈ forecastRowsFor F lv cols key (groupFitData g), ∀ r ∈ g,
        row.ds = r.ds → row.actual = r.y)
    ∧ (∀ row ∈ forecastRowsFor F lv cols key (groupFitData g),
        (∀ r ∈ g, r.ds ≠ row.ds) → row.actual = none) := by
  refine ⟨?_, ?_, ?_⟩
  · intro r hr
    exact exists_row_ds (mem_predictDates.mpr
      (Or.inl ⟨(r.ds, r.y), mem_groupFitData.mpr ⟨r, hr, rfl, rfl⟩, rfl⟩))
  · intro row hrow r hr hds
    rw [forecastRowsFor] at hrow
    obtain ⟨base, hbase, a, rfl, hcase⟩ := mem_mergeActuals hrow
    have hrm : (r.ds, r.y) ∈ groupFitData g := mem_groupFitData.mpr ⟨r, hr, rfl, rfl⟩
    rcases hcase with ⟨ha, hnone⟩ | ⟨p, hp, hpds, ha⟩
    · exact absurd hds.symm (hnone (r.ds, r.y) hrm)
    · have hpe : p = (r.ds, r.y) :=
        List.inj_on_of_nodup_map (groupFitData_nodup hnodup) hp hrm (by rw [hpds, ← hds])
      show a = r.y
      rw [ha, hpe]
  · intro row hrow hno
    rw [forecastRowsFor] at hrow
    obtain ⟨base, hbase, a, rfl, hcase⟩ := mem_mergeActuals hrow
    rcases hcase with ⟨ha, _⟩ | ⟨p, hp, hpds, _⟩
    · exact ha
    · obtain ⟨r0, hr0, hr0ds, _⟩ := mem_groupFitData.mp
        (show (p.1, p.2) ∈ groupFitData g from hp)
      exact absurd (show r0.ds = ({ base with actual := a } : ForecastRow).ds from by
        rw [hr0ds, hpds]) (hno r0 hr0)

/-- Witness for C3 at a concrete two-record group. -/
theorem c3_witness :
    2 ≤ dfW.length ∧ (dfW.map SalesRecord.ds).Nodup
    ∧ (∃ row ∈ forecastRowsFor constFitter "Overall" [] [] (groupFitData dfW),
        row.ds = ⟨2023, 1, 1⟩) := by
  refine ⟨by decide, by decide, ?_⟩
  exact (c3_actual_roundtrip constFitter "Overall" [] [] dfW (by decide) (by decide)).1
    ⟨⟨2023, 1, 1⟩, some 10, none, none, none, none⟩ (by decide)

/-- C4: whenever an output table is written, its header is exactly the
fixed ten-column list in order, every row has the ten cells with an ISO
date string first, and every grouping-key column not used by the row's
level is null on that row. -/
theorem c4_output_schema (F : Forecaster) (git : GitOutcome) (now : String)
    (df : List SalesRecord) (t : OutputTable)
    (h : (runScript F git now df).fileWritten = some t) :
    t.header = ["Date", "ForecastLevel", "BCode", "CustomerName", "PSRCode",
      "ProductCode", "Actual", "Forecast", "Forecast_Low", "Forecast_High"]
    ∧ (∀ cells ∈ t.rows, cells.length = 10
        ∧ ∃ d : Date, cells[0]? = some (some d.toISO))
    ∧ (∀ cells ∈ t.rows, ∀ lv ∈ FORECAST_LEVELS,
        cells[1]? = some (some lv.1) →
        ∀ c0 : KeyCol, c0 ∉ lv.2 → cells[keyColIdx c0]? = some none) := by
  obtain ⟨st, hres, hne, rfl⟩ := fileWritten_some h
  refine ⟨fixedHeader_eq, ?_, ?_⟩
  · intro cells hc
    obtain ⟨row, hrow, rfl⟩ := List.mem_map.mp hc
    rw [rowCells_eq]
    exact ⟨rfl, row.ds, rfl⟩
  · intro cells hc lv hlv h1 c0 hc0
    obtain ⟨row, hrow, rfl⟩ := List.mem_map.mp hc
    obtain ⟨rows0, hrows0, hrowin⟩ := List.mem_flatten.mp hrow
    rcases runLevels_mem _ hres rows0 hrows0 with habs | ⟨lv0, hlv0, key, fd, rfl⟩
    · exact absurd habs (List.not_mem_nil _)
    · have hfields := forecastRowsFor_fields hrowin
      rw [rowCells_eq] at h1
      have hname : row.forecastLevel = lv.1 :=
        Option.some.inj (Option.some.inj h1)
      have hlveq : lv = lv0 := by
        apply List.inj_on_of_nodup_map level_names_nodup hlv hlv0
        rw [← hname, hfields.1]
      have hkey : row.keyVal c0 = none := hfields.2 c0 (hlveq ▸ hc0)
      rw [rowCells_eq]
      cases c0 <;> exact congrArg some hkey

/-- Witness for C4 at a concrete successful run. -/
theorem c4_witness :
    ((runScript constFitter (GitOutcome.ok true) "now" dfW).fileWritten.getD
        ⟨[], []⟩).header =
      ["Date", "ForecastLevel", "BCode", "CustomerName", "PSRCode", "ProductCode",
       "Actual", "Forecast", "Forecast_Low", "Forecast_High"] := by
  have h : (runScript constFitter (GitOutcome.ok true) "now" dfW).fileWritten =
      some ((runScript constFitter (GitOutcome.ok true) "now" dfW).fileWritten.getD
        ⟨[], []⟩) := by rfl
  exact (c4_output_schema constFitter (GitOutcome.ok true) "now" dfW _ h).1

/-- C5: for a level with grouping keys, the (key, group) pairs the script
fits are exactly the groups of the null-key-free records partitioned by
key tuple and restricted to at least 2 records; smaller groups are
skipped silently, and when no fit fails the level appends exactly those
groups' forecasts without error. -/
theorem c5_grouping (cols : List KeyCol) (df : List SalesRecord) (hcols : cols ≠ []) :
    (∀ (k : List (Option String)) (g : List SalesRecord),
      (k, g) ∈ groupsToForecast cols df ↔
        2 ≤ g.length ∧
          g = df.filter (fun r =>
            cols.all (fun c2 => (r.keyVal c2).isSome) && decide (keyTuple cols r = k)))
    ∧ (∀ (F : Forecaster) (lv : String) (st : ScriptState), st.df = df →
        (∀ p ∈ groupsToForecast cols df, F.fitFails (groupFitData p.2) = false) →
        levelStep F st (lv, cols) =
          .ok { st with
                all_forecasts := st.all_forecasts ++
                  (groupsToForecast cols df).map
                    (fun p => forecastRowsFor F lv cols p.1 (groupFitData p.2)) }) := by
  refine ⟨fun k g => mem_groupsToForecast, ?_⟩
  intro F lv st hdf hok
  subst hdf
  exact levelStep_grouped hcols st hok

/-- Witness for C5 at the spec's Scenario B input (BCode values A, A, B):
only the two-record group A is fit, the one-record group B is dropped. -/
theorem c5_witness :
    (([some "A"], [(⟨⟨2023, 1, 1⟩, some 1, some "A", none, none, none⟩ : SalesRecord),
        ⟨⟨2023, 2, 1⟩, some 2, some "A", none, none, none⟩]) ∈
      groupsToForecast [KeyCol.BCode] dfB3)
    ∧ ¬ (∃ g, ([some "B"], g) ∈ groupsToForecast [KeyCol.BCode] dfB3) := by
  constructor
  · exact ((c5_grouping [KeyCol.BCode] dfB3 (by decide)).1 _ _).mpr ⟨by decide, by decide⟩
  · rintro ⟨g, hg⟩
    have h := ((c5_grouping [KeyCol.BCode] dfB3 (by decide)).1 _ _).mp hg
    have h1 := h.1
    rw [h.2] at h1
    exact absurd h1 (by decide)

/-- C6 counterexample: the zero-key (Overall) branch performs no
value-based filtering — on `dfC6` the single overall group handed to the
forecaster contains the record whose value is null, contradicting the
claim that the group holds precisely the non-null-value records. -/
theorem c6_counterexample :
    (((⟨2023, 2, 1⟩, none) : Date × Option Int) ∈ groupFitData dfC6)
    ∧ ¬ (∀ p ∈ groupFitData dfC6, p.2.isSome = true)
    ∧ levelStep constFitter ⟨dfC6, []⟩ ("Overall", []) =
        .ok ⟨dfC6, [forecastRowsFor constFitter "Overall" [] [] (groupFitData dfC6)]⟩ :=
  ⟨by decide, by decide, rfl⟩

/-- C6 (amended): for the zero-key level exactly one group is formed, and
it contains ALL loaded records — including records with a null value; the
fewer-than-2 check also counts null-value records. -/
theorem c6_overall_amended :
    (∀ (F : Forecaster) (name : String) (st : ScriptState),
        2 ≤ st.df.length → F.fitFails (groupFitData st.df) = false →
        levelStep F st (name, []) =
          .ok { st with
                all_forecasts := st.all_forecasts ++
                  [forecastRowsFor F name [] [] (groupFitData st.df)] })
    ∧ (∀ (df : List SalesRecord) (d : Date) (v : Option Int),
        (d, v) ∈ groupFitData df ↔ ∃ r ∈ df, r.ds = d ∧ r.y = v) := by
  constructor
  · intro F name st hlen hfit
    have h2 : ¬ st.df.length < 2 := Nat.not_lt.mpr hlen
    simp [levelStep, fitAndForecast, hfit, h2]
  · intro df d v
    exact mem_groupFitData

/-- Witness for C6's amended claim at a concrete two-record state. -/
theorem c6_witness :
    levelStep constFitter ⟨dfW, []⟩ ("Overall", []) =
      .ok ⟨dfW, [forecastRowsFor constFitter "Overall" [] [] (groupFitData dfW)]⟩ :=
  c6_overall_amended.1 constFitter "Overall" ⟨dfW, []⟩ (by decide) rfl

/-- C7: once the level loop succeeded and produced forecasts, a publish
failure (missing git tool, or a failing git command) is caught and
reported, the written file is the same as in a successful publish, and
the process exits zero. -/
theorem c7_publish_isolation (F : Forecaster) (now : String) (df : List SalesRecord)
    (git : GitOutcome)
    (hW : ((runScript F (GitOutcome.ok true) now df).fileWritten).isSome = true)
    (hFail : git = GitOutcome.toolMissing ∨ ∃ m, git = GitOutcome.commandFailed m) :
    (runScript F git now df).fileWritten = (runScript F (GitOutcome.ok true) now df).fileWritten
    ∧ (runScript F git now df).fileWritten.isSome = true
    ∧ (runScript F git now df).exitCode = 0
    ∧ (runScript F git now df).gitFailureReported = true
    ∧ (runScript F git now df).scriptError = none := by
  obtain ⟨t, ht⟩ := Option.isSome_iff_exists.mp hW
  obtain ⟨st, hres, hne, rfl⟩ := fileWritten_some ht
  have he : ¬ (st.all_forecasts.isEmpty = true) := fun hc => hne (List.isEmpty_iff.mp hc)
  have hrun : ∀ g2 : GitOutcome, runScript F g2 now df = afterLevels g2 now (.ok st) := by
    intro g2
    rw [runScript, hres]
  rcases hFail with rfl | ⟨m, rfl⟩
  · rw [hrun GitOutcome.toolMissing, hrun (GitOutcome.ok true)]
    simp only [afterLevels]
    rw [if_neg he, if_neg he]
    exact ⟨rfl, rfl, rfl, rfl, rfl⟩
  · rw [hrun (GitOutcome.commandFailed m), hrun (GitOutcome.ok true)]
    simp only [afterLevels]
    rw [if_neg he, if_neg he]
    exact ⟨rfl, rfl, rfl, rfl, rfl⟩

/-- Witness for C7 at a concrete run with the git tool missing. -/
theorem c7_witness :
    (runScript constFitter GitOutcome.toolMissing "now" dfW).fileWritten.isSome = true
    ∧ (runScript constFitter GitOutcome.toolMissing "now" dfW).exitCode = 0
    ∧ (runScript constFitter GitOutcome.toolMissing "now" dfW).gitFailureReported = true := by
  have h := c7_publish_isolation constFitter "now" dfW GitOutcome.toolMissing
    (by decide) (Or.inl rfl)
  exact ⟨h.2.1, h.2.2.1, h.2.2.2.1⟩

set_option maxRecDepth 4000 in
/-- C8: the horizon constant is 3 months; for every fitted group the
assembled rows cover exactly the group's input dates plus the first three
month-start dates beyond the group's last input date; and on the 24-month
Scenario A input the written table has exactly 27 rows, all at level
Overall with every key column null. -/
theorem c8_horizon_and_coverage :
    FORECAST_PERIOD_MONTHS = 3
    ∧ (∀ (F : Forecaster) (lv : String) (cols : List KeyCol) (key : List (Option String))
        (g : List SalesRecord), 2 ≤ g.length →
        (∀ r ∈ g, ∃ row ∈ forecastRowsFor F lv cols key (groupFitData g), row.ds = r.ds)
        ∧ (∀ d ∈ monthStartsAfter (lastDate (groupFitData g)) FORECAST_PERIOD_MONTHS,
            ∃ row ∈ forecastRowsFor F lv cols key (groupFitData g), row.ds = d)
        ∧ (∀ row ∈ forecastRowsFor F lv cols key (groupFitData g),
            (∃ r ∈ g, row.ds = r.ds) ∨
              row.ds ∈ monthStartsAfter (lastDate (groupFitData g)) FORECAST_PERIOD_MONTHS)
        ∧ (∀ r ∈ g, r.ds.key ≤ (lastDate (groupFitData g)).key))
    ∧ ((runScript constFitter (GitOutcome.ok true) "t" df24).fileWritten.map
        (fun t => (t.rows.length, t.rows.all (fun cs =>
          decide (cs[1]? = some (some "Overall")) && decide (cs[2]? = some none)
            && decide (cs[3]? = some none) && decide (cs[4]? = some none)
            && decide (cs[5]? = some none))))
        = some (27, true)) := by
  refine ⟨rfl, ?_, by decide⟩
  intro F lv cols key g hlen
  refine ⟨?_, ?_, ?_, ?_⟩
  · intro r hr
    exact exists_row_ds (mem_predictDates.mpr
      (Or.inl ⟨(r.ds, r.y), mem_groupFitData.mpr ⟨r, hr, rfl, rfl⟩, rfl⟩))
  · intro d hd
    exact exists_row_ds (mem_predictDates.mpr (Or.inr hd))
  · intro row hrow
    rw [forecastRowsFor] at hrow
    obtain ⟨base, hbase, a, rfl, _⟩ := mem_mergeActuals hrow
    obtain ⟨d, hd, rfl⟩ := List.mem_map.mp hbase
    rcases mem_predictDates.mp hd with ⟨p, hp, hpd⟩ | hfut
    · obtain ⟨r0, hr0, hr0ds, _⟩ := mem_groupFitData.mp
        (show (p.1, p.2) ∈ groupFitData g from hp)
      refine Or.inl ⟨r0, hr0, ?_⟩
      rw [withActual_ds, mkRow_ds, ← hpd, hr0ds]
    · refine Or.inr ?_
      rw [withActual_ds, mkRow_ds]
      exact hfut
  · intro r hr
    exact @mem_lastDate_key (groupFitData g) (r.ds, r.y)
      (mem_groupFitData.mpr ⟨r, hr, rfl, rfl⟩)

/-- Witness for C8 at a concrete two-record group: the first future
month-start is covered by an assembled row. -/
theorem c8_witness :
    2 ≤ dfW.length
    ∧ (∃ row ∈ forecastRowsFor constFitter "Overall" [] [] (groupFitData dfW),
        row.ds = ⟨2023, 3, 1⟩) := by
  refine ⟨by decide, ?_⟩
  exact ((c8_horizon_and_coverage.2.1 constFitter "Overall" [] [] dfW (by decide)).2.1)
    ⟨2023, 3, 1⟩ (by decide)

/-- C9: with the external forecaster a fixed function and the input and
configuration identical, two runs produce identical output tables (hence
byte-identical serialized files): the output is independent of the
wall-clock timestamp, which reaches only the git commit message. -/
theorem c9_determinism (F : Forecaster) (git : GitOutcome) (df : List SalesRecord)
    (n1 n2 : String) :
    (runScript F git n1 df).fileWritten = (runScript F git n2 df).fileWritten
    ∧ (runScript F git n1 df).fileWritten.map toCSV
        = (runScript F git n2 df).fileWritten.map toCSV
    ∧ (runScript F git n1 df).exitCode = (runScript F git n2 df).exitCode
    ∧ (runScript F git n1 df).scriptError = (runScript F git n2 df).scriptError
    ∧ (runScript F git n1 df).pushed = (runScript F git n2 df).pushed
    ∧ (∀ m, (runScript F git n1 df).commitMessage = some m →
        m = "Auto-update sales forecast: " ++ n1) := by
  unfold runScript
  cases hres : runLevels F ⟨df, []⟩ FORECAST_LEVELS with
  | error e =>
    exact ⟨rfl, rfl, rfl, rfl, rfl, fun m hm => Option.noConfusion hm⟩
  | ok st =>
    by_cases he : st.all_forecasts.isEmpty = true
    · have e1 : ∀ n : String, afterLevels git n (.ok st) =
          { fileWritten := none, commitMessage := none, pushed := false,
            gitFailureReported := false, scriptError := some noForecastsMsg,
            exitCode := 0 } := by
        intro n
        rw [afterLevels, if_pos he]
      rw [e1 n1, e1 n2]
      exact ⟨rfl, rfl, rfl, rfl, rfl, fun m hm => Option.noConfusion hm⟩
    · have e1 : ∀ n : String, afterLevels git n (.ok st) =
          { fileWritten := some (buildOutput st.all_forecasts),
            commitMessage := (publishStep n git).1,
            pushed := (publishStep n git).2.1,
            gitFailureReported := (publishStep n git).2.2,
            scriptError := none, exitCode := 0 } := by
        intro n
        rw [afterLevels, if_neg he]
      rw [e1 n1, e1 n2]
      refine ⟨rfl, rfl, rfl, rfl, ?_, ?_⟩
      · cases git with
        | ok b => cases b <;> rfl
        | toolMissing => rfl
        | commandFailed m => rfl
      · intro m hm
        cases git with
        | ok b =>
          cases b with
          | true => exact (Option.some.inj hm).symm
          | false => exact Option.noConfusion hm
        | toolMissing => exact Option.noConfusion hm
        | commandFailed s => exact Option.noConfusion hm

/-- Witness for C9: the file content at two different clock readings, and
the commit-message shape at one of them. -/
theorem c9_witness :
    (runScript constFitter (GitOutcome.ok true) "2025-01-01" dfW).fileWritten
      = (runScript constFitter (GitOutcome.ok true) "2099-12-31" dfW).fileWritten
    ∧ "Auto-update sales forecast: 2025-01-01" =
        "Auto-update sales forecast: " ++ "2025-01-01" := by
  have h := c9_determinism constFitter (GitOutcome.ok true) dfW "2025-01-01" "2099-12-31"
  exact ⟨h.1, h.2.2.2.2.2 "Auto-update sales forecast: 2025-01-01" (by decide)⟩

/-- C10: the level loop's state never mutates the loaded dataframe: every
level step and any sequence of level steps return a state whose `df` is
the one they received, so each level iteration sees the original records. -/
theorem c10_frame :
    (∀ (F : Forecaster) (st : ScriptState) (lv : String × List KeyCol) (st2 : ScriptState),
        levelStep F st lv = .ok st2 → st2.df = st.df)
    ∧ (∀ (F : Forecaster) (lvs : List (String × List KeyCol)) (st st2 : ScriptState),
        runLevels F st lvs = .ok st2 → st2.df = st.df) :=
  ⟨fun _ _ _ _ h => levelStep_df h, fun _ lvs _ _ h => runLevels_df lvs h⟩

/-- Witness for C10 at a concrete full run over the configured levels. -/
theorem c10_witness :
    ((runLevels constFitter ⟨dfW, []⟩ FORECAST_LEVELS).toOption.getD ⟨[], []⟩).df = dfW := by
  have h : runLevels constFitter ⟨dfW, []⟩ FORECAST_LEVELS =
      .ok ((runLevels constFitter ⟨dfW, []⟩ FORECAST_LEVELS).toOption.getD ⟨[], []⟩) := by
    rfl
  exact c10_frame.2 constFitter FORECAST_LEVELS ⟨dfW, []⟩ _ h

end SalesForecast
